import Mathlib

/-!
Verification of the entity registry, message dispatcher, session loops and
connection supervisor of `cmd/headless/bot.go` (racerxdl/minebot).

The Go code is shallowly embedded: the global `players` map becomes an
association list, packets become an inductive type, and `handlePacket`
becomes a pure function from a registry and an optional packet to the new
registry together with the list of emitted log observations.  Positions are
`mgl32.Vec3` values; they are embedded as triples of rationals, and
`mgl32.FloatEqual` / `Vec3.ApproxEqual` are translated literally (exact
rational arithmetic in place of float32 arithmetic; every concrete input
used below is chosen so that the float32 computation and the rational
computation agree).
-/

namespace Minebot

/-- Embedding of `mgl32.Vec3` (three float32 coordinates) as exact rationals. -/
structure Vec3 where
  x : ℚ
  y : ℚ
  z : ℚ
deriving DecidableEq, Repr

/-- `mgl32.Epsilon = 1e-7`, the threshold used by `mgl32.FloatEqual`. -/
def mglEpsilon : ℚ := 1 / 10 ^ 7

/-- `mgl32.MinNormal = 2^-126`, the smallest normal float32. -/
def mglMinNormal : ℚ := 1 / 2 ^ 126

/-- Embedding of `mgl32.FloatEqualThreshold(a, b, epsilon)`:
`a == b`, or for near-zero operands `|a-b| < eps*eps`, else relative
comparison `|a-b| / (|a|+|b|) < eps`. -/
def floatEqualThreshold (a b eps : ℚ) : Bool :=
  if a = b then true
  else
    let diff := |a - b|
    if a * b = 0 ∨ diff < mglMinNormal then decide (diff < eps * eps)
    else decide (diff / (|a| + |b|) < eps)

/-- Embedding of `mgl32.FloatEqual(a, b)`. -/
def floatEqual (a b : ℚ) : Bool :=
  floatEqualThreshold a b mglEpsilon

/-- Embedding of `mgl32.Vec3.ApproxEqual`: component-wise `FloatEqual`. -/
def Vec3.approxEqual (v1 v2 : Vec3) : Bool :=
  floatEqual v1.x v2.x && floatEqual v1.y v2.y && floatEqual v1.z v2.z

/-- Embedding of `mgl32.Vec3.Add`: component-wise addition. -/
def Vec3.add (v1 v2 : Vec3) : Vec3 :=
  ⟨v1.x + v2.x, v1.y + v2.y, v1.z + v2.z⟩

/-- Embedding of the `Player` struct (bot.go lines 24-29).  Runtime ids are
`uint64` map keys and global ids are `int64`; neither is subject to any
arithmetic, so they are embedded as `Nat` / `Int`. -/
structure Player where
  Username : String
  EntityRuntimeID : Nat
  EntityGlobalID : Int
  Position : Vec3
deriving DecidableEq, Repr

/-- Embedding of the global `players` map (bot.go line 31): an association
list from runtime id to player record. -/
def Reg : Type := List (Nat × Player)

instance : DecidableEq Reg := by
  unfold Reg
  infer_instance

/-- The initial (empty) registry, as at process start. -/
def playersInit : Reg := []

/-- Map lookup `players[id]` returning `some` on hit, `none` on miss. -/
def lookupPlayer (reg : Reg) (id : Nat) : Option Player :=
  (List.find? (fun kv => kv.1 == id) reg).map (fun kv => kv.2)

/-- Map deletion `delete(players, id)`. -/
def eraseId (reg : Reg) (id : Nat) : Reg :=
  List.filter (fun kv => kv.1 != id) reg

/-- Map insertion `players[id] = p` (insert-or-overwrite). -/
def insertPlayer (reg : Reg) (id : Nat) (p : Player) : Reg :=
  (id, p) :: eraseId reg id

/-- In-place mutation `player.Position = pos` of the record stored at `id`
(the Go code mutates through the `*Player` obtained from the map). -/
def setPosition (reg : Reg) (id : Nat) (pos : Vec3) : Reg :=
  List.map (fun kv => if kv.1 == id then (kv.1, { kv.2 with Position := pos }) else kv) reg

/-- Embedding of the packet kinds `handlePacket` dispatches on.  Fields
irrelevant to any handled behaviour are dropped; `other` stands for every
packet id without a `case` arm (the `switch` has no `default`, so such
packets are ignored). -/
inductive Packet where
  | text (textType : Nat) (needsTranslation : Bool) (message sourceName : String)
      (parameters : List String)
  | playerList (entries : List (String × Int))
  | removeEntity (entityNetworkID : Nat)
  | addPlayer (username : String) (entityRuntimeID : Nat) (entityUniqueID : Int)
      (position : Vec3)
  | actorEvent (eventType : Nat) (entityRuntimeID : Nat)
  | movePlayer (entityRuntimeID : Nat) (position : Vec3)
  | moveActorAbsolute (entityRuntimeID : Nat) (position : Vec3)
  | moveActorDelta (entityRuntimeID : Nat) (position : Vec3)
  | other
deriving DecidableEq, Repr

/-- `packet.TextTypeObjectWhisper`.  Externally defined constant; only
(in)equality against it is ever used, so its numeric value is immaterial. -/
def textTypeObjectWhisper : Nat := 9

/-- `packet.EventTypePlayerDied`.  Externally defined constant; only
equality against it is used. -/
def eventTypePlayerDied : Nat := 3

/-- The log observations `handlePacket` can emit.  Chat text is carried as
received; the localisation transform (`lang` package) is an external
service and does not affect registry state. -/
inductive Obs where
  | chat (sourceName message : String)
  | playerListCount (n : Nat)
  | playerListEntry (username : String) (uid : Int)
  | removedInfo (username : String)
  | addedInfo (username : String) (position : Vec3)
  | diedDebug (entityRuntimeID : Nat)
  | diedWarn (username : String)
deriving DecidableEq, Repr

/-- The shared absolute-move handling of the `IDMovePlayer` and
`IDMoveActorAbsolute` arms (bot.go lines 86-104): on a registry hit, the
position is overwritten only when the new reading is NOT `ApproxEqual` to
the stored one; the (commented-out) movement log line emits nothing. -/
def moveAbsolute (reg : Reg) (rid : Nat) (pos : Vec3) : Reg × List Obs :=
  match lookupPlayer reg rid with
  | some player =>
      if !(Vec3.approxEqual player.Position pos) then (setPosition reg rid pos, [])
      else (reg, [])
  | none => (reg, [])

/-- Embedding of `handlePacket` (bot.go lines 33-118).  Returns the new
registry and the emitted observations; `none` models a nil packet, which
the guard at line 34 ignores. -/
def handlePacket (reg : Reg) (pk : Option Packet) : Reg × List Obs :=
  match pk with
  | none => (reg, [])
  | some (Packet.text textType _ message sourceName _) =>
      if textType != textTypeObjectWhisper then (reg, [Obs.chat sourceName message])
      else (reg, [])
  | some (Packet.playerList entries) =>
      (reg, Obs.playerListCount entries.length ::
        List.map (fun e => Obs.playerListEntry e.1 e.2) entries)
  | some (Packet.removeEntity id) =>
      match lookupPlayer reg id with
      | some player => (eraseId reg id, [Obs.removedInfo player.Username])
      | none => (reg, [])
  | some (Packet.addPlayer username rid uid pos) =>
      (insertPlayer reg rid ⟨username, rid, uid, pos⟩, [Obs.addedInfo username pos])
  | some (Packet.actorEvent eventType rid) =>
      if eventType == eventTypePlayerDied then
        match lookupPlayer reg rid with
        | some player => (reg, [Obs.diedDebug rid, Obs.diedWarn player.Username])
        | none => (reg, [Obs.diedDebug rid])
      else (reg, [])
  | some (Packet.movePlayer rid pos) => moveAbsolute reg rid pos
  | some (Packet.moveActorAbsolute rid pos) => moveAbsolute reg rid pos
  | some (Packet.moveActorDelta rid delta) =>
      match lookupPlayer reg rid with
      | some player => (setPosition reg rid (Vec3.add player.Position delta), [])
      | none => (reg, [])
  | some Packet.other => (reg, [])

/-- Folding `handlePacket` over a message sequence, as the receive loop
does, keeping only the registry. -/
def dispatchAll (reg : Reg) (msgs : List (Option Packet)) : Reg :=
  List.foldl (fun r pk => (handlePacket r pk).1) reg msgs

/-- Per-id replay of the registry lifecycle as worded by the testable
properties of the spec: an add installs a fresh record, a remove deletes it,
an absolute move always replaces the stored position with the new reading,
and a delta move adds the delta to the stored position.  This definition
follows the words of the SPEC (claim C1/C2 as stated) for comparison with the
code embedding. -/
def specApply (st : Option Player) (id : Nat) (pk : Packet) : Option Player :=
  match pk with
  | Packet.addPlayer username rid uid pos =>
      if rid == id then some ⟨username, rid, uid, pos⟩ else st
  | Packet.removeEntity rid => if rid == id then none else st
  | Packet.movePlayer rid pos =>
      if rid == id then Option.map (fun p => { p with Position := pos }) st else st
  | Packet.moveActorAbsolute rid pos =>
      if rid == id then Option.map (fun p => { p with Position := pos }) st else st
  | Packet.moveActorDelta rid d =>
      if rid == id then Option.map (fun p => { p with Position := Vec3.add p.Position d }) st
      else st
  | _ => st

/-- Spec-worded replay of a whole message sequence for one runtime id,
starting from absence. -/
def specReplay (msgs : List Packet) (id : Nat) : Option Player :=
  List.foldl (fun st pk => specApply st id pk) none msgs

/-- Per-id replay exactly as the CODE behaves: identical to `specApply`
except that an absolute move whose new reading is `ApproxEqual` to the
stored position leaves the stored position unchanged (bot.go lines 90,
100: the assignment is guarded by `!player.Position.ApproxEqual(...)`). -/
def trackApply (st : Option Player) (id : Nat) (pk : Packet) : Option Player :=
  match pk with
  | Packet.addPlayer username rid uid pos =>
      if rid == id then some ⟨username, rid, uid, pos⟩ else st
  | Packet.removeEntity rid => if rid == id then none else st
  | Packet.movePlayer rid pos =>
      if rid == id then
        Option.map (fun p =>
          if Vec3.approxEqual p.Position pos then p else { p with Position := pos }) st
      else st
  | Packet.moveActorAbsolute rid pos =>
      if rid == id then
        Option.map (fun p =>
          if Vec3.approxEqual p.Position pos then p else { p with Position := pos }) st
      else st
  | Packet.moveActorDelta rid d =>
      if rid == id then Option.map (fun p => { p with Position := Vec3.add p.Position d }) st
      else st
  | _ => st

/-- Code-behaviour replay of a whole message sequence for one runtime id. -/
def trackReplay (msgs : List Packet) (id : Nat) : Option Player :=
  List.foldl (fun st pk => trackApply st id pk) none msgs

/-! ## Receive loop (bot.go lines 152-167) -/

/-- A receive error, reduced to the one property the loop inspects:
whether `errors.Unwrap(err)` yields a `minecraft.DisconnectError`. -/
structure RxErr where
  isDisconnect : Bool
deriving DecidableEq, Repr

/-- Exit condition of the receive loop: still running (input exhausted),
returned normally (`loopRunning = false; return`), or escalated to a
process-fatal `panic(disconnect)`. -/
inductive RxExit where
  | running
  | stopped
  | fatal
deriving DecidableEq, Repr

/-- Embedding of `eventRxLoop`: consume `conn.ReadPacket()` results in
order; on success dispatch via `handlePacket` and keep looping; on an
error that unwraps to a disconnect, log and `panic` (fatal); on any other
error, clear `loopRunning` and `return` (stopped). -/
def eventRxRun : Reg → List (Except RxErr (Option Packet)) → Reg × RxExit
  | reg, [] => (reg, RxExit.running)
  | reg, Except.error e :: _ =>
      if e.isDisconnect then (reg, RxExit.fatal) else (reg, RxExit.stopped)
  | reg, Except.ok pk :: rest => eventRxRun (handlePacket reg pk).1 rest

/-! ## Send/heartbeat loop (bot.go lines 122-150)

The loop body is `for loopRunning { time.Sleep(100ms); select { case <-stop:
loopRunning = false; conn.Close() } }`.  The `select` has a single case and
no `default` and no live timer case (the ticker arm is commented out), so
after the 100ms sleep each iteration blocks until a value can be received
from `stop`. -/

/-- One iteration of the send/heartbeat loop body, as a function of whether
a shutdown signal is available on `stop`.  `none` means the iteration does
not complete (the single-case `select` blocks); `some (running, closed)`
gives the `loopRunning` flag and connection-closed state after the
iteration. -/
def txIterationStep (closed : Bool) (sigAvailable : Bool) : Option (Bool × Bool) :=
  if sigAvailable then some (false, true) else none

/-- Outcome of running the send/heartbeat loop against a trace of shutdown
signals: either the loop function returned (with the final connection
state), or it is blocked inside the `select` awaiting a signal. -/
inductive TxOutcome where
  | returned (closed : Bool)
  | blocked (closed : Bool)
deriving DecidableEq, Repr

/-- Embedding of the `for loopRunning` loop of `eventTxLoop`: each completed
iteration consumes one shutdown signal, clears `loopRunning` and closes the
connection; with no signal available the iteration blocks forever. -/
def eventTxRun : List Unit → Bool → Bool → TxOutcome
  | _, false, closed => TxOutcome.returned closed
  | [], true, closed => TxOutcome.blocked closed
  | _ :: rest, true, closed =>
      match txIterationStep closed true with
      | some (running2, closed2) => eventTxRun rest running2 closed2
      | none => TxOutcome.blocked closed

/-! ## Session supervisor connect-retry (bot.go lines 192-212, 236-237) -/

/-- A dial failure, reduced to the one property `main` inspects: whether
`errors.Unwrap(err)` yields a `minecraft.DisconnectError` (which only
selects which error line is logged). -/
structure DialErr where
  isDisconnect : Bool
deriving DecidableEq, Repr

/-- The two retry-notice log lines the connect loop can emit per failed
attempt: `Disconnected: ...` or `Error handling connection: ...`. -/
inductive SupLog where
  | disconnectNotice
  | errorNotice
deriving DecidableEq, Repr

/-- Observable outcome of the supervisor connect phase: the retry
notices logged, the backoff delays slept (milliseconds), how many times
each loop goroutine was started, and whether a connection was obtained. -/
structure SupRun where
  retryNotices : List SupLog
  backoffDelaysMs : List Nat
  rxLoopStarts : Nat
  txLoopStarts : Nat
  connected : Bool
deriving DecidableEq, Repr

/-- Embedding of the `for !connected` dial loop of `main` followed by the two
`go` statements: each failed attempt logs exactly one notice (chosen by the
disconnect classification) and sleeps a flat `time.Second`; the first
success leaves the loop and starts `eventRxLoop` and `eventTxLoop` once
each.  The input is the (finite prefix of the) successive dial results;
exhausting it without a success means the loop is still retrying. -/
def mainConnect : List (Except DialErr Unit) → SupRun
  | [] => ⟨[], [], 0, 0, false⟩
  | Except.error e :: rest =>
      let r := mainConnect rest
      ⟨(if e.isDisconnect then SupLog.disconnectNotice else SupLog.errorNotice) :: r.retryNotices,
       1000 :: r.backoffDelaysMs, r.rxLoopStarts, r.txLoopStarts, r.connected⟩
  | Except.ok _ :: _ => ⟨[], [], 1, 1, true⟩

/-- The runtime identifiers currently present in the registry, in
storage order. -/
def regKeys (reg : Reg) : List Nat := List.map Prod.fst reg

/-! ## Concrete inputs used by scenario theorems -/

/-- The float32 value `1.0`. -/
def vUnit : Vec3 := ⟨1, 0, 0⟩

/-- The float32 value nearest above `1.0` (`1 + 2^-23`): distinct from
`1.0` but `ApproxEqual` to it under the `1e-7` relative threshold. -/
def vUnitUlp : Vec3 := ⟨1 + 1 / 8388608, 0, 0⟩

/-- A concrete player record at position `vUnit`. -/
def pAlice : Player := ⟨"Alice", 1, 7, vUnit⟩

/-- A registry holding `pAlice` under runtime id 1. -/
def regAlice : Reg := [(1, pAlice)]

/-- An add followed by an absolute move to a distinct but approx-equal
position. -/
def msgsApprox : List Packet :=
  [Packet.addPlayer "Alice" 1 7 vUnit, Packet.moveActorAbsolute 1 vUnitUlp]

/-! ## Lookup lemmas for the registry operations -/

theorem lookupPlayer_nil (id : Nat) : lookupPlayer [] id = none := rfl

theorem lookupPlayer_cons (kv : Nat × Player) (l : List (Nat × Player)) (id : Nat) :
    lookupPlayer (kv :: l) id = if kv.1 = id then some kv.2 else lookupPlayer l id := by
  by_cases h : kv.1 = id
  · simp [lookupPlayer, List.find?_cons_of_pos, h]
  · have hb : (kv.1 == id) = false := by simp [h]
    simp [lookupPlayer, List.find?_cons_of_neg, h, hb]

theorem lookupPlayer_eraseId (reg : Reg) (rid id : Nat) :
    lookupPlayer (eraseId reg rid) id =
      if rid = id then none else lookupPlayer reg id := by
  induction reg with
  | nil => by_cases h : rid = id <;> simp [eraseId, lookupPlayer, h]
  | cons kv l ih =>
      simp only [eraseId] at ih ⊢
      rw [List.filter_cons]
      by_cases hkr : kv.1 = rid <;> by_cases hri : rid = id <;>
        simp_all [lookupPlayer_cons]

theorem lookupPlayer_insertPlayer (reg : Reg) (rid : Nat) (p : Player) (id : Nat) :
    lookupPlayer (insertPlayer reg rid p) id =
      if rid = id then some p else lookupPlayer reg id := by
  rw [insertPlayer, lookupPlayer_cons, lookupPlayer_eraseId]
  by_cases h : rid = id <;> simp [h]

theorem lookupPlayer_setPosition (reg : Reg) (rid : Nat) (pos : Vec3) (id : Nat) :
    lookupPlayer (setPosition reg rid pos) id =
      if rid = id then
        Option.map (fun p => { p with Position := pos }) (lookupPlayer reg id)
      else lookupPlayer reg id := by
  induction reg with
  | nil => by_cases h : rid = id <;> simp [setPosition, lookupPlayer, h]
  | cons kv l ih =>
      simp only [setPosition] at ih ⊢
      simp only [beq_iff_eq] at ih ⊢
      rw [List.map_cons]
      by_cases hkr : kv.1 = rid
      · by_cases hki : kv.1 = id
        · have hri : rid = id := hkr.symm.trans hki
          simp [hkr, lookupPlayer_cons, hki, hri]
        · have hri : ¬ rid = id := fun h => hki (hkr.trans h)
          simp [hkr, lookupPlayer_cons, hki, hri, ih]
      · by_cases hki : kv.1 = id
        · have hri : ¬ rid = id := fun h => hkr (hki.trans h.symm)
          have hir : ¬ id = rid := fun h => hkr (hki.trans h)
          simp [hkr, lookupPlayer_cons, hki, hri, hir]
        · simp [hkr, lookupPlayer_cons, hki, ih]

theorem lookupPlayer_moveAbsolute (reg : Reg) (rid : Nat) (pos : Vec3) (id : Nat) :
    lookupPlayer (moveAbsolute reg rid pos).1 id =
      if rid = id then
        Option.map (fun p =>
          if Vec3.approxEqual p.Position pos then p else { p with Position := pos })
          (lookupPlayer reg id)
      else lookupPlayer reg id := by
  cases hl : lookupPlayer reg rid with
  | none =>
      simp only [moveAbsolute, hl]
      by_cases hri : rid = id
      · subst hri
        simp [hl]
      · simp [hri]
  | some p =>
      simp only [moveAbsolute, hl]
      cases ha : Vec3.approxEqual p.Position pos
      · simp only [ha, Bool.not_false, if_true]
        rw [lookupPlayer_setPosition]
        by_cases hri : rid = id
        · subst hri
          simp [hl, ha]
        · simp [hri]
      · simp only [ha, Bool.not_true, Bool.false_eq_true, if_false]
        by_cases hri : rid = id
        · subst hri
          simp [hl, ha]
        · simp [hri]

/-- Dispatching one packet affects the record visible under `id` exactly as
the per-id code tracker does. -/
theorem lookupPlayer_handlePacket (reg : Reg) (pk : Packet) (id : Nat) :
    lookupPlayer (handlePacket reg (some pk)).1 id =
      trackApply (lookupPlayer reg id) id pk := by
  cases pk with
  | text tt nt msg src params =>
      simp only [handlePacket, trackApply]
      split <;> rfl
  | playerList entries =>
      simp [handlePacket, trackApply]
  | removeEntity rid =>
      cases hl : lookupPlayer reg rid with
      | some p =>
          simp only [handlePacket, hl, trackApply, beq_iff_eq]
          exact lookupPlayer_eraseId reg rid id
      | none =>
          simp only [handlePacket, hl, trackApply, beq_iff_eq]
          by_cases hri : rid = id
          · subst hri
            simp [hl]
          · simp [hri]
  | addPlayer username rid uid pos =>
      simp only [handlePacket, trackApply, beq_iff_eq]
      exact lookupPlayer_insertPlayer reg rid ⟨username, rid, uid, pos⟩ id
  | actorEvent et rid =>
      simp only [handlePacket, trackApply]
      by_cases h : (et == eventTypePlayerDied) = true
      · simp only [h, if_true]
        cases hl : lookupPlayer reg rid <;> simp
      · simp [h]
  | movePlayer rid pos =>
      simp only [handlePacket]
      rw [lookupPlayer_moveAbsolute]
      simp only [trackApply, beq_iff_eq]
  | moveActorAbsolute rid pos =>
      simp only [handlePacket]
      rw [lookupPlayer_moveAbsolute]
      simp only [trackApply, beq_iff_eq]
  | moveActorDelta rid d =>
      cases hl : lookupPlayer reg rid with
      | none =>
          simp only [handlePacket, hl, trackApply, beq_iff_eq]
          by_cases hri : rid = id
          · subst hri
            simp [hl]
          · simp [hri]
      | some p =>
          simp only [handlePacket, hl, trackApply, beq_iff_eq]
          rw [lookupPlayer_setPosition]
          by_cases hri : rid = id
          · subst hri
            simp [hl]
          · simp [hri]
  | other =>
      simp [handlePacket, trackApply]

/-- Folding the dispatcher over a packet list refines the per-id tracker. -/
theorem lookupPlayer_dispatchAll (msgs : List Packet) (reg : Reg) (id : Nat) :
    lookupPlayer (dispatchAll reg (List.map some msgs)) id =
      List.foldl (fun st pk => trackApply st id pk) (lookupPlayer reg id) msgs := by
  induction msgs generalizing reg with
  | nil => rfl
  | cons pk rest ih =>
      rw [List.map_cons]
      show lookupPlayer (dispatchAll (handlePacket reg (some pk)).1 (List.map some rest)) id = _
      rw [ih, lookupPlayer_handlePacket]
      rfl

/-! ## Key-uniqueness lemmas -/

theorem regKeys_cons (kv : Nat × Player) (l : List (Nat × Player)) :
    regKeys (kv :: l) = kv.1 :: regKeys l := rfl

theorem regKeys_setPosition (reg : Reg) (rid : Nat) (pos : Vec3) :
    regKeys (setPosition reg rid pos) = regKeys reg := by
  induction reg with
  | nil => rfl
  | cons kv l ih =>
      simp only [setPosition] at ih ⊢
      rw [List.map_cons, regKeys_cons, regKeys_cons, ih]
      by_cases h : (kv.1 == rid) = true <;> simp [h]

theorem regKeys_nodup_eraseId (reg : Reg) (rid : Nat) (h : (regKeys reg).Nodup) :
    (regKeys (eraseId reg rid)).Nodup :=
  ((List.filter_sublist reg).map Prod.fst).nodup h

theorem not_mem_regKeys_eraseId (reg : Reg) (rid : Nat) :
    rid ∉ regKeys (eraseId reg rid) := by
  simp only [regKeys, eraseId, List.mem_map]
  rintro ⟨kv, hmem, hfst⟩
  rw [List.mem_filter] at hmem
  rcases hmem with ⟨-, hne⟩
  rw [bne_iff_ne] at hne
  exact hne hfst

/-- Dispatching any packet (or nil) preserves key uniqueness. -/
theorem regKeys_nodup_handlePacket (reg : Reg) (pk : Option Packet)
    (h : (regKeys reg).Nodup) : (regKeys (handlePacket reg pk).1).Nodup := by
  cases pk with
  | none => exact h
  | some pk =>
    cases pk with
    | text tt nt msg src params =>
        simp only [handlePacket]
        split <;> exact h
    | playerList entries => exact h
    | removeEntity rid =>
        cases hl : lookupPlayer reg rid with
        | none => simpa [handlePacket, hl] using h
        | some p =>
            simp only [handlePacket, hl]
            exact regKeys_nodup_eraseId reg rid h
    | addPlayer username rid uid pos =>
        simp only [handlePacket, insertPlayer, regKeys_cons, List.nodup_cons]
        exact ⟨not_mem_regKeys_eraseId reg rid, regKeys_nodup_eraseId reg rid h⟩
    | actorEvent et rid =>
        simp only [handlePacket]
        by_cases he : (et == eventTypePlayerDied) = true
        · simp only [he, if_true]
          cases hl : lookupPlayer reg rid <;> simpa using h
        · simpa [he] using h
    | movePlayer rid pos =>
        simp only [handlePacket, moveAbsolute]
        cases hl : lookupPlayer reg rid with
        | none => exact h
        | some p =>
            cases ha : Vec3.approxEqual p.Position pos
            · simpa [ha, regKeys_setPosition] using h
            · simpa [ha] using h
    | moveActorAbsolute rid pos =>
        simp only [handlePacket, moveAbsolute]
        cases hl : lookupPlayer reg rid with
        | none => exact h
        | some p =>
            cases ha : Vec3.approxEqual p.Position pos
            · simpa [ha, regKeys_setPosition] using h
            · simpa [ha] using h
    | moveActorDelta rid d =>
        cases hl : lookupPlayer reg rid with
        | none => simpa [handlePacket, hl] using h
        | some p =>
            simp only [handlePacket, hl]
            simpa [regKeys_setPosition] using h
    | other => exact h

/-- Key uniqueness holds in every reachable registry state. -/
theorem regKeys_nodup_dispatchAll (msgs : List (Option Packet)) (reg : Reg)
    (h : (regKeys reg).Nodup) : (regKeys (dispatchAll reg msgs)).Nodup := by
  induction msgs generalizing reg with
  | nil => exact h
  | cons pk rest ih => exact ih _ (regKeys_nodup_handlePacket reg pk h)

theorem countP_eq_count_regKeys (reg : Reg) (id : Nat) :
    List.countP (fun kv => kv.1 == id) reg = List.count id (regKeys reg) := by
  simp [regKeys, List.count, List.countP_map]
  rfl

/-! ## Claim theorems -/

/-- Claim C1 (amended): dispatching any finite message sequence from the
empty registry leaves, under each runtime id, exactly the record given by
the per-id replay of that sequence: the id is present exactly when its
last add was not followed by a remove; the record carries the name and
global id of its last add (a re-add overwrites the whole record, never
merging fields); its position results from applying, in order, every move
since that add, where a delta-move adds the delta component-wise and an
absolute move replaces the stored position only when the new reading is
not ApproxEqual to it (an approx-equal reading leaves the stored position
unchanged). -/
theorem C1_registry_replay (msgs : List Packet) (id : Nat) :
    lookupPlayer (dispatchAll playersInit (List.map some msgs)) id =
      trackReplay msgs id :=
  lookupPlayer_dispatchAll msgs playersInit id

/-- Claim C2 (amended): for an entity present in the registry, an absolute
move message (MovePlayer or MoveActorAbsolute) whose new position is
ApproxEqual to the stored one emits no movement observation and leaves the
registry — the stored position included — entirely unchanged: the code
skips the write, it does not refresh the stored value. -/
theorem C2_approx_move_noop (reg : Reg) (id : Nat) (p : Player) (pos : Vec3)
    (hlook : lookupPlayer reg id = some p)
    (happrox : Vec3.approxEqual p.Position pos = true) :
    handlePacket reg (some (Packet.movePlayer id pos)) = (reg, []) ∧
    handlePacket reg (some (Packet.moveActorAbsolute id pos)) = (reg, []) := by
  constructor <;> simp [handlePacket, moveAbsolute, hlook, happrox]

/-- Claim C3: dispatching a delta-move with delta D for an entity present
with position P stores position P+D, computed by component-wise vector
addition. -/
theorem C3_delta_move_adds (reg : Reg) (id : Nat) (p : Player) (d : Vec3)
    (hlook : lookupPlayer reg id = some p) :
    lookupPlayer (handlePacket reg (some (Packet.moveActorDelta id d))).1 id =
      some { p with Position :=
        ⟨p.Position.x + d.x, p.Position.y + d.y, p.Position.z + d.z⟩ } := by
  simp only [handlePacket, hlook]
  rw [lookupPlayer_setPosition]
  simp [hlook, Vec3.add]

/-- Claim C4: a remove, absolute move, or delta-move naming a runtime id
absent from the registry leaves the registry exactly unchanged, emits no
observation and raises no error. -/
theorem C4_unknown_id_noop (reg : Reg) (id : Nat) (pos : Vec3)
    (hlook : lookupPlayer reg id = none) :
    handlePacket reg (some (Packet.removeEntity id)) = (reg, []) ∧
    handlePacket reg (some (Packet.movePlayer id pos)) = (reg, []) ∧
    handlePacket reg (some (Packet.moveActorAbsolute id pos)) = (reg, []) ∧
    handlePacket reg (some (Packet.moveActorDelta id pos)) = (reg, []) := by
  refine ⟨?_, ?_, ?_, ?_⟩ <;> simp [handlePacket, moveAbsolute, hlook]

/-- Claim C4 witness: Remove(99), moves for id 99 on the empty registry
are silent no-ops. -/
theorem C4_unknown_id_noop_witness :
    lookupPlayer playersInit 99 = none ∧
    handlePacket playersInit (some (Packet.removeEntity 99)) = (playersInit, []) ∧
    handlePacket playersInit (some (Packet.movePlayer 99 ⟨0, 0, 0⟩)) = (playersInit, []) ∧
    handlePacket playersInit (some (Packet.moveActorAbsolute 99 ⟨0, 0, 0⟩)) = (playersInit, []) ∧
    handlePacket playersInit (some (Packet.moveActorDelta 99 ⟨0, 0, 0⟩)) = (playersInit, []) :=
  ⟨rfl, (C4_unknown_id_noop playersInit 99 ⟨0, 0, 0⟩ rfl).1,
   (C4_unknown_id_noop playersInit 99 ⟨0, 0, 0⟩ rfl).2.1,
   (C4_unknown_id_noop playersInit 99 ⟨0, 0, 0⟩ rfl).2.2.1,
   (C4_unknown_id_noop playersInit 99 ⟨0, 0, 0⟩ rfl).2.2.2⟩

/-- Claim C5: in every registry state reachable from the empty registry by
dispatching any message sequence, each runtime identifier maps to at most
one live entity record. -/
theorem C5_at_most_one_record (msgs : List (Option Packet)) (id : Nat) :
    List.countP (fun kv => kv.1 == id) (dispatchAll playersInit msgs) ≤ 1 := by
  have h := regKeys_nodup_dispatchAll msgs playersInit (by simp [playersInit, regKeys])
  rw [countP_eq_count_regKeys]
  exact List.nodup_iff_count_le_one.mp h id

/-- Claim C6: after any run of successful receives, a receive error
escalates to the process-fatal path exactly when the error unwraps to a
disconnect condition; any other receive error makes the loop stop and
return without propagating an error. -/
theorem C6_rx_error_classification (reg : Reg) (pks : List (Option Packet)) (e : RxErr) :
    (eventRxRun reg (List.map Except.ok pks ++ [Except.error e])).2 =
      if e.isDisconnect then RxExit.fatal else RxExit.stopped := by
  induction pks generalizing reg with
  | nil => cases he : e.isDisconnect <;> simp [eventRxRun, he]
  | cons pk rest ih =>
      rw [List.map_cons, List.cons_append]
      show (eventRxRun (handlePacket reg pk).1
        (List.map Except.ok rest ++ [Except.error e])).2 = _
      exact ih _

/-- Claim C7: the send/heartbeat loop closes the connection and then
terminates exactly upon consuming a shutdown signal; when no signal is
ever available it neither closes the connection nor terminates. -/
theorem C7_tx_close_iff_signal (sigs : List Unit) :
    eventTxRun sigs true false =
      if sigs.isEmpty then TxOutcome.blocked false else TxOutcome.returned true := by
  cases sigs with
  | nil => rfl
  | cons s rest => simp [eventTxRun, txIterationStep]

/-- Claim C8 (amended): an iteration of the send/heartbeat loop completes
exactly when a shutdown signal is available, in which case it consumes the
signal, clears the running flag and closes the connection; with no signal
available the iteration never completes, because the single-case select
has no polling-interval or default alternative. -/
theorem C8_iteration_blocks_without_signal (closed : Bool) :
    txIterationStep closed false = none ∧
    txIterationStep closed true = some (false, true) :=
  ⟨rfl, rfl⟩

/-- Claim C8 as stated is refuted: with no shutdown signal available the
iteration does not complete within any interval — the loop stays blocked
in the select and never re-checks the signal. -/
theorem C8_claim_counterexample :
    txIterationStep false false = none ∧
    eventTxRun [] true false = TxOutcome.blocked false :=
  ⟨rfl, rfl⟩

/-- Claim C9: when the first n dial attempts fail and attempt n+1
succeeds, the supervisor logs exactly one retry notice per failed attempt,
sleeps a flat (non-exponential) 1000 ms backoff after each failure, then
starts the receive loop and the send/heartbeat loop exactly once each; n
is arbitrary, so retries are unbounded. -/
theorem C9_retry_then_start_once (n : Nat) (e : DialErr) :
    mainConnect (List.replicate n (Except.error e) ++ [Except.ok ()]) =
      ⟨List.replicate n
         (if e.isDisconnect then SupLog.disconnectNotice else SupLog.errorNotice),
       List.replicate n 1000, 1, 1, true⟩ := by
  induction n with
  | zero => rfl
  | succ k ih => simp [List.replicate_succ, mainConnect, ih]

/-- Claim C10: dispatching a nil (absent) message is a total no-op: the
registry is unchanged, no observation is emitted and nothing is
dereferenced, since the nil branch is handled explicitly. -/
theorem C10_nil_packet_noop (reg : Reg) : handlePacket reg none = (reg, []) := rfl

end Minebot

section RatEval
attribute [local semireducible] Rat.add Rat.mul Rat.sub Rat.inv

set_option maxRecDepth 8000

namespace Minebot

-- sanity: the spec section 8 replay scenario
example :
    dispatchAll playersInit
      [some (Packet.addPlayer "Alice" 1 7 ⟨0, 0, 0⟩),
       some (Packet.movePlayer 1 ⟨1, 0, 0⟩),
       some (Packet.moveActorDelta 1 ⟨0, 1, 0⟩),
       some (Packet.removeEntity 1)] = [] := by decide

example :
    lookupPlayer
      (dispatchAll playersInit
        [some (Packet.addPlayer "Alice" 1 7 ⟨0, 0, 0⟩),
         some (Packet.movePlayer 1 ⟨1, 0, 0⟩),
         some (Packet.moveActorDelta 1 ⟨0, 1, 0⟩)]) 1 =
      some ⟨"Alice", 1, 7, ⟨1, 1, 0⟩⟩ := by decide

-- sanity: the two positions used below really are distinct yet ApproxEqual
example : Vec3.approxEqual vUnit vUnitUlp = true ∧ vUnit ≠ vUnitUlp := by decide

/-- Claim C1 as stated is refuted: after Add(id=1, pos=(1,0,0)) followed by
an absolute move of id 1 to the distinct position (1+2^-23,0,0) — within
the ApproxEqual epsilon — the registry still holds the old position,
whereas applying every move in order, as the claim words it, would store
the new one. -/
theorem C1_claim_counterexample :
    lookupPlayer (dispatchAll playersInit (List.map some msgsApprox)) 1 ≠
      specReplay msgsApprox 1 := by decide

/-- Claim C2 as stated is refuted: for the entity stored at (1,0,0), an
absolute move to the approx-equal (1+2^-23,0,0) emits no observation, yet
the stored position is NOT replaced with the new reading. -/
theorem C2_claim_counterexample :
    Vec3.approxEqual vUnit vUnitUlp = true ∧
    (handlePacket regAlice (some (Packet.moveActorAbsolute 1 vUnitUlp))).2 = [] ∧
    lookupPlayer (handlePacket regAlice (some (Packet.moveActorAbsolute 1 vUnitUlp))).1 1 ≠
      some { pAlice with Position := vUnitUlp } :=
  ⟨by decide, by decide, by decide⟩

/-- Claim C2 witness: a move of the present entity to a position
ApproxEqual to the stored one leaves the registry unchanged and emits
nothing. -/
theorem C2_approx_move_noop_witness :
    lookupPlayer regAlice 1 = some pAlice ∧
    Vec3.approxEqual pAlice.Position vUnit = true ∧
    handlePacket regAlice (some (Packet.movePlayer 1 vUnit)) = (regAlice, []) ∧
    handlePacket regAlice (some (Packet.moveActorAbsolute 1 vUnit)) = (regAlice, []) :=
  ⟨by decide, by decide,
   (C2_approx_move_noop regAlice 1 pAlice vUnit (by decide) (by decide)).1,
   (C2_approx_move_noop regAlice 1 pAlice vUnit (by decide) (by decide)).2⟩

/-- Claim C3 witness: a delta-move of the present entity by (1,2,3) stores
the component-wise sum. -/
theorem C3_delta_move_adds_witness :
    lookupPlayer regAlice 1 = some pAlice ∧
    lookupPlayer (handlePacket regAlice (some (Packet.moveActorDelta 1 ⟨1, 2, 3⟩))).1 1 =
      some { pAlice with Position :=
        ⟨pAlice.Position.x + 1, pAlice.Position.y + 2, pAlice.Position.z + 3⟩ } :=
  ⟨by decide, C3_delta_move_adds regAlice 1 pAlice ⟨1, 2, 3⟩ (by decide)⟩

end Minebot

end RatEval
